import Mathlib

/-!
Shallow embedding of the `pixels` collaborative-canvas server
(`app/main.py`, `app/models.py`, `app/database.py`, `app/rate_limiter.py`,
`app/redis_cache.py`) and proofs about it.

Conventions of the embedding:
* machine integers and bytes are `Nat`; colours are triples of byte values;
* the canvas bitmap (a 900 x 900 x 3 `numpy` array in the source) is a
  function from row index `y` and column index `x` to an RGB triple, and
  `canvasBytes` is its row-major flattening, matching `bitmap.tobytes()`;
* `float` wall-clock times and token counts of the rate limiter are `ℚ`;
* fallible external calls (the Redis `incr`/`get`) are `Except Unit Nat`
  inputs; a Python exception raised by a call is the `Except.error` case;
* one iteration of an event loop (one websocket message, one flush tick)
  is one application of the corresponding step function.
-/

namespace Pixels

/-! ## Canvas data model (`app/models.py`, `app/main.py`) -/

/-- An RGB pixel value: three byte channels. -/
abbrev RGB := Nat × Nat × Nat

/-- The in-memory canvas: row `y`, column `x` to pixel value, matching
`bitmap[y, x]` on the `(900, 900, 3)` array. -/
abbrev Bitmap := Nat → Nat → RGB

/-- Canvas width, 900 in the reference configuration. -/
def canvasW : Nat := 900

/-- Canvas height, 900 in the reference configuration. -/
def canvasH : Nat := 900

/-- The `Tool` enum of `app/models.py`. -/
inductive Tool where
  | brush
  | eraser
  deriving DecidableEq

/-- A validated `PixelUpdate` (`app/models.py`): pydantic guarantees
`0 ≤ x < 900`, `0 ≤ y < 900` and the `#RRGGBB` colour pattern; the
fields here are the values after validation.  The advisory
`client_timestamp` carries no behaviour in the applier and is omitted. -/
structure PixelUpdate where
  x : Nat
  y : Nat
  color : String
  tool : Tool
  user_id : Option String
  deriving DecidableEq

/-- A `RegionLock` (`app/models.py`); `reason`/`created_at` carry no
behaviour in the lock check and are omitted. -/
structure RegionLock where
  x1 : Nat
  y1 : Nat
  x2 : Nat
  y2 : Nat
  locked_by : String
  deriving DecidableEq

/-- Embedding of `DynamoDBCanvas.is_position_locked` (`app/database.py` lines 176-181),
evaluated against a fixed list of active locks. -/
def is_position_locked (locks : List RegionLock) (x y : Nat) : Bool :=
  locks.any fun lk => decide (lk.x1 ≤ x ∧ x ≤ lk.x2 ∧ lk.y1 ≤ y ∧ y ≤ lk.y2)

/-- The `PixelAck` model (`app/models.py`), as built in `process_pixel_batch`. -/
structure PixelAck where
  x : Nat
  y : Nat
  color : String
  success : Bool
  deriving DecidableEq

/-- The `PixelReject` model (`app/models.py`). -/
structure PixelReject where
  x : Nat
  y : Nat
  reason : String
  deriving DecidableEq

/-- An `AuditLogEntry` as built in `process_pixel_batch`: the `details`
dict is flattened into its four fields; the timestamp carries no
behaviour and is omitted. -/
structure AuditLogEntry where
  user_id : Option String
  action : String
  x : Nat
  y : Nat
  color : String
  tool : Tool
  deriving DecidableEq

/-! ## Colour parsing (`process_pixel_batch` line 94) -/

/-- Value of one hexadecimal digit, as `int(c, 16)` accepts it. -/
def hexDigitVal (c : Char) : Nat :=
  if '0' ≤ c ∧ c ≤ '9' then c.toNat - '0'.toNat
  else if 'a' ≤ c ∧ c ≤ 'f' then c.toNat - 'a'.toNat + 10
  else if 'A' ≤ c ∧ c ≤ 'F' then c.toNat - 'A'.toNat + 10
  else 0

/-- Value of a two-digit hexadecimal byte, `int(s[i:i+2], 16)`. -/
def hexPairVal (c1 c2 : Char) : Nat := 16 * hexDigitVal c1 + hexDigitVal c2

/-- Embedding of `tuple(int(update.color[i:i+2], 16) for i in (1, 3, 5))`: the RGB
triple of a `#RRGGBB` colour string. -/
def color_rgb (s : String) : RGB :=
  let cs := s.toList
  (hexPairVal (cs.getD 1 '0') (cs.getD 2 '0'),
   hexPairVal (cs.getD 3 '0') (cs.getD 4 '0'),
   hexPairVal (cs.getD 5 '0') (cs.getD 6 '0'))

/-- The white background written by the eraser tool (line 97). -/
def eraserColor : RGB := (255, 255, 255)

/-- Embedding of `bitmap[y, x] = value`: pointwise update of the canvas. -/
def setPixel (bm : Bitmap) (y x : Nat) (c : RGB) : Bitmap :=
  fun y2 x2 => if y2 = y ∧ x2 = x then c else bm y2 x2

/-! ## SHA-256 (`hashlib.sha256(...).hexdigest()`), over byte lists -/

/-- Truncation to a 32-bit word. -/
def w32 (n : Nat) : Nat := n % 4294967296

/-- Right rotation of a 32-bit word. -/
def rotr32 (n x : Nat) : Nat := w32 ((x >>> n) ||| (x <<< (32 - n)))

/-- Bitwise complement of a 32-bit word. -/
def bnot32 (x : Nat) : Nat := 4294967295 ^^^ x

/-- SHA-256 `Ch`. -/
def ch32 (x y z : Nat) : Nat := (x &&& y) ^^^ (bnot32 x &&& z)

/-- SHA-256 `Maj`. -/
def maj32 (x y z : Nat) : Nat := (x &&& y) ^^^ (x &&& z) ^^^ (y &&& z)

/-- SHA-256 `Σ₀`. -/
def bigS0 (x : Nat) : Nat := rotr32 2 x ^^^ rotr32 13 x ^^^ rotr32 22 x

/-- SHA-256 `Σ₁`. -/
def bigS1 (x : Nat) : Nat := rotr32 6 x ^^^ rotr32 11 x ^^^ rotr32 25 x

/-- SHA-256 `σ₀`. -/
def smallS0 (x : Nat) : Nat := rotr32 7 x ^^^ rotr32 18 x ^^^ (x >>> 3)

/-- SHA-256 `σ₁`. -/
def smallS1 (x : Nat) : Nat := rotr32 17 x ^^^ rotr32 19 x ^^^ (x >>> 10)

/-- The 64 SHA-256 round constants. -/
def sha256K : List Nat :=
  [1116352408, 1899447441, 3049323471, 3921009573, 961987163,
   1508970993, 2453635748, 2870763221, 3624381080, 310598401,
   607225278, 1426881987, 1925078388, 2162078206, 2614888103,
   3248222580, 3835390401, 4022224774, 264347078, 604807628,
   770255983, 1249150122, 1555081692, 1996064986, 2554220882,
   2821834349, 2952996808, 3210313671, 3336571891, 3584528711,
   113926993, 338241895, 666307205, 773529912, 1294757372,
   1396182291, 1695183700, 1986661051, 2177026350, 2456956037,
   2730485921, 2820302411, 3259730800, 3345764771, 3516065817,
   3600352804, 4094571909, 275423344, 430227734, 506948616,
   659060556, 883997877, 958139571, 1322822218, 1537002063,
   1747873779, 1955562222, 2024104815, 2227730452, 2361852424,
   2428436474, 2756734187, 3204031479, 3329325298]

/-- The eight SHA-256 working variables. -/
structure Sha256State where
  a : Nat
  b : Nat
  c : Nat
  d : Nat
  e : Nat
  f : Nat
  g : Nat
  h : Nat
  deriving DecidableEq

/-- SHA-256 initial hash state. -/
def sha256init : Sha256State :=
  ⟨1779033703, 3144134277, 1013904242, 2773480762,
   1359893119, 2600822924, 528734635, 1541459225⟩

/-- One step of message-schedule extension; the schedule is carried with
the most recent word at the head. -/
def scheduleStep (ws : List Nat) : List Nat :=
  w32 (smallS1 (ws.getD 1 0) + ws.getD 6 0 + smallS0 (ws.getD 14 0) + ws.getD 15 0) :: ws

/-- The 64-entry message schedule of one 16-word block. -/
def schedule (block : List Nat) : List Nat :=
  ((List.range 48).foldl (fun ws _ => scheduleStep ws) block.reverse).reverse

/-- One SHA-256 compression round. -/
def compressStep (st : Sha256State) (k w : Nat) : Sha256State :=
  let t1 := w32 (st.h + bigS1 st.e + ch32 st.e st.f st.g + k + w)
  let t2 := w32 (bigS0 st.a + maj32 st.a st.b st.c)
  ⟨w32 (t1 + t2), st.a, st.b, st.c, w32 (st.d + t1), st.e, st.f, st.g⟩

/-- Compression of one 16-word block into the hash state. -/
def compressBlock (H : Sha256State) (block : List Nat) : Sha256State :=
  let ws := schedule block
  let fl := (sha256K.zip ws).foldl (fun st kw => compressStep st kw.1 kw.2) H
  ⟨w32 (H.a + fl.a), w32 (H.b + fl.b), w32 (H.c + fl.c), w32 (H.d + fl.d),
   w32 (H.e + fl.e), w32 (H.f + fl.f), w32 (H.g + fl.g), w32 (H.h + fl.h)⟩

/-- Big-endian byte representation of `n` on `k` bytes. -/
def toBytesBE (k n : Nat) : List Nat :=
  (List.range k).map fun i => n / 256 ^ (k - 1 - i) % 256

/-- Big-endian 32-bit word from four bytes. -/
def word4 (bs : List Nat) : Nat :=
  bs.getD 0 0 * 16777216 + bs.getD 1 0 * 65536 + bs.getD 2 0 * 256 + bs.getD 3 0

/-- Split a list into chunks of `n + 1` elements (last chunk possibly
shorter). -/
def chunksOf : Nat → List Nat → List (List Nat)
  | _, [] => []
  | n, x :: rest => ((x :: rest).take (n + 1)) :: chunksOf n ((x :: rest).drop (n + 1))
termination_by _ l => l.length
decreasing_by simp [List.length_drop]; omega

/-- SHA-256 padding: `0x80`, zeros to 56 mod 64, then the bit length on
eight big-endian bytes. -/
def sha256pad (msg : List Nat) : List Nat :=
  let L := msg.length
  msg ++ [128] ++ List.replicate ((119 - L % 64) % 64) 0 ++ toBytesBE 8 (L * 8)

/-- The SHA-256 digest (32 bytes) of a byte list. -/
def sha256bytes (msg : List Nat) : List Nat :=
  let blocks := chunksOf 63 (sha256pad msg)
  let fl := blocks.foldl (fun H b => compressBlock H ((chunksOf 3 b).map word4)) sha256init
  toBytesBE 4 fl.a ++ toBytesBE 4 fl.b ++ toBytesBE 4 fl.c ++ toBytesBE 4 fl.d ++
  toBytesBE 4 fl.e ++ toBytesBE 4 fl.f ++ toBytesBE 4 fl.g ++ toBytesBE 4 fl.h

/-- Lowercase hexadecimal digit characters. -/
def hexChar (n : Nat) : Char := ("0123456789abcdef".toList).getD n '0'

/-- Two lowercase hexadecimal characters of one byte. -/
def byteHex (b : Nat) : List Char := [hexChar (b / 16), hexChar (b % 16)]

/-- Embedding of `hashlib.sha256(msg).hexdigest()`: the lowercase-hex SHA-256 digest of
a byte list. -/
def sha256hex (msg : List Nat) : String :=
  String.mk (((sha256bytes msg).map byteHex).flatten)

/-! ## The applier (`process_pixel_batch`, `app/main.py` lines 78-124) -/

/-- State threaded through the `for update in batch` loop of
`process_pixel_batch`: the mutable bitmap plus the `acks`, `rejects` and
audit-entry lists (in arrival order). -/
structure ApplyState where
  bitmap : Bitmap
  acks : List PixelAck
  rejects : List PixelReject
  audit : List AuditLogEntry

/-- The `for update in batch` loop of `process_pixel_batch` (lines
89-109): a locked position is recorded as a reject and skipped; otherwise
the pixel is written (eraser writes white), an ack is recorded and an
audit entry appended. -/
def applyBatch (locks : List RegionLock) (bm : Bitmap) : List PixelUpdate → ApplyState
  | [] => ⟨bm, [], [], []⟩
  | u :: rest =>
    if is_position_locked locks u.x u.y then
      let s := applyBatch locks bm rest
      ⟨s.bitmap, s.acks, ⟨u.x, u.y, "Position locked"⟩ :: s.rejects, s.audit⟩
    else
      let bm2 := if u.tool = Tool.eraser then setPixel bm u.y u.x eraserColor
                 else setPixel bm u.y u.x (color_rgb u.color)
      let s := applyBatch locks bm2 rest
      ⟨s.bitmap, ⟨u.x, u.y, u.color, true⟩ :: s.acks, s.rejects,
       ⟨u.user_id, "pixel_update", u.x, u.y, u.color, u.tool⟩ :: s.audit⟩

/-- Row-major flattening of the canvas, `bitmap.tobytes()` on the
`(900, 900, 3)` `uint8` array. -/
def canvasBytes (bm : Bitmap) : List Nat :=
  (List.range canvasH).flatMap fun y => (List.range canvasW).flatMap fun x =>
    [(bm y x).1, (bm y x).2.1, (bm y x).2.2]

/-- Embedding of `np.frombuffer(bitmap, dtype=np.uint8).reshape((900, 900, 3))`:
the canvas decoded from stored bytes. -/
def bytesToBitmap (bytes : List Nat) : Bitmap :=
  fun y x =>
    (bytes.getD ((y * canvasW + x) * 3) 0,
     bytes.getD ((y * canvasW + x) * 3 + 1) 0,
     bytes.getD ((y * canvasW + x) * 3 + 2) 0)

/-- One entry of the broadcast `pixels` list (line 118). -/
structure BroadcastPixel where
  x : Nat
  y : Nat
  color : String
  deriving DecidableEq

/-- The `data` of the `pixel:bulk_update` event (lines 115-122). -/
structure BulkUpdateMessage where
  pixels : List BroadcastPixel
  hash : String
  deriving DecidableEq

/-- Everything `process_pixel_batch` produces: the mutated bitmap, the
`acks`/`rejects` lists it builds (and never sends anywhere), the audit
entries written, the `(bitmap, hash)` pair handed to
`save_canvas_state`, and the broadcast `pixel:bulk_update` payload. -/
structure BatchResult where
  bitmap : Bitmap
  acks : List PixelAck
  rejects : List PixelReject
  audit : List AuditLogEntry
  savedBitmap : List Nat
  savedHash : String
  broadcast : BulkUpdateMessage

/-- Embedding of `process_pixel_batch` (`app/main.py` lines 78-124).  `canvas_state`
is the stored byte array, or `none` when `get_canvas_state()` returned
nothing (a zero-initialized canvas is used).  Note the broadcast
`pixels` list is built from `batch`, the whole input batch. -/
def process_pixel_batch (locks : List RegionLock) (canvas_state : Option (List Nat))
    (batch : List PixelUpdate) : BatchResult :=
  let bitmap0 : Bitmap := match canvas_state with
    | none => fun _ _ => (0, 0, 0)
    | some bytes => bytesToBitmap bytes
  let s := applyBatch locks bitmap0 batch
  let bitmap_bytes := canvasBytes s.bitmap
  let hash_value := sha256hex bitmap_bytes
  { bitmap := s.bitmap, acks := s.acks, rejects := s.rejects, audit := s.audit,
    savedBitmap := bitmap_bytes, savedHash := hash_value,
    broadcast := { pixels := batch.map fun p => ⟨p.x, p.y, p.color⟩,
                   hash := hash_value } }

/-- Outcome of one tick of `batch_pixel_updates` (`app/main.py` lines
62-75).  `processed` is the applier's work up to the persistence write
(audit entries and in-memory writes happen before the write); on a
persistence failure the exception propagates out of
`process_pixel_batch` before `broadcast_message`, is caught by the
loop's `except` and printed, and processing moves on. -/
structure FlushResult where
  processed : Option BatchResult
  broadcastSent : Option BulkUpdateMessage
  newQueue : List PixelUpdate
  errorLogged : Bool

/-- One tick of `batch_pixel_updates`: skip when the queue is empty;
otherwise copy and clear the queue, run `process_pixel_batch`, and
broadcast — unless the persistence write fails (`persistOk = false`), in
which case the exception is caught and logged and nothing more happens:
the queue stays cleared. -/
def batch_pixel_updates_step (locks : List RegionLock) (canvas_state : Option (List Nat))
    (queue : List PixelUpdate) (persistOk : Bool) : FlushResult :=
  if queue.isEmpty then ⟨none, none, queue, false⟩
  else
    let r := process_pixel_batch locks canvas_state queue
    if persistOk then ⟨some r, some r.broadcast, [], false⟩
    else ⟨some r, none, [], true⟩

/-! ## Token-bucket limiter (`app/rate_limiter.py` lines 8-75) -/

/-- The `TokenBucket` dataclass; `float` fields are modelled as `ℚ`. -/
structure TokenBucket where
  capacity : ℚ
  refill_rate : ℚ
  tokens : ℚ
  last_refill : ℚ
  deriving DecidableEq

/-- The dictionary `WebSocketRateLimiter.buckets`: the per-user bucket dictionary,
as an association list. -/
abbrev WSBuckets := List (String × TokenBucket)

/-- The constant `WebSocketRateLimiter.burst_capacity` (line 21): new buckets are
seeded to this capacity. -/
def burst_capacity : ℚ := 20

/-- The constant `WebSocketRateLimiter.refill_rate` (line 20): 10 tokens per second. -/
def ws_refill_rate : ℚ := 10

/-- Dictionary lookup `self.buckets[user_id]`. -/
def lookupBucket (bs : WSBuckets) (uid : String) : Option TokenBucket :=
  (bs.find? fun p => decide (p.1 = uid)).map (·.2)

/-- In-place mutation of the bucket stored under `uid`. -/
def updateBucket (bs : WSBuckets) (uid : String) (b : TokenBucket) : WSBuckets :=
  bs.map fun p => if p.1 = uid then (uid, b) else p

/-- Lines 37-41: `tokens = min(capacity, tokens + time_elapsed * refill_rate)`. -/
def refillTokens (b : TokenBucket) (now : ℚ) : ℚ :=
  min b.capacity (b.tokens + (now - b.last_refill) * b.refill_rate)

/-- Lines 36-49 on one bucket: refill by elapsed time, then admit and
debit iff `tokens ≥ pixel_count`; `last_refill` is set to `now` either
way. -/
def bucketCheck (b : TokenBucket) (pixel_count now : ℚ) : Bool × TokenBucket :=
  let tokens := refillTokens b now
  if pixel_count ≤ tokens then (true, ⟨b.capacity, b.refill_rate, tokens - pixel_count, now⟩)
  else (false, ⟨b.capacity, b.refill_rate, tokens, now⟩)

/-- Embedding of `WebSocketRateLimiter.check_rate_limit` (lines 23-49): create the
bucket lazily on first use, seeded to the full burst capacity with
`last_refill = now`, then refill-and-debit. -/
def ws_check_rate_limit (st : WSBuckets) (uid : String) (pixel_count now : ℚ) :
    Bool × WSBuckets :=
  let st1 := if (lookupBucket st uid).isSome then st
             else (uid, ⟨burst_capacity, ws_refill_rate, burst_capacity, now⟩) :: st
  match lookupBucket st1 uid with
  | none => (false, st1)
  | some b =>
    let r := bucketCheck b pixel_count now
    (r.1, updateBucket st1 uid r.2)

/-- A sequence of `check_rate_limit(uid, 1)` calls at the given times
against one limiter instance; returns the admit decisions in order. -/
def wsRun (st : WSBuckets) (uid : String) : List ℚ → List Bool × WSBuckets
  | [] => ([], st)
  | t :: ts =>
    let r := ws_check_rate_limit st uid 1 t
    let rest := wsRun r.2 uid ts
    (r.1 :: rest.1, rest.2)

/-- The single-bucket core of `wsRun`: the refill-and-debit step
(`bucketCheck`, with `pixel_count = 1`) applied at each time in order.
`wsRun` from a singleton bucket map is exactly this (see
`wsRun_singleton`). -/
def bucketRun (b : TokenBucket) : List ℚ → List Bool × TokenBucket
  | [] => ([], b)
  | t :: ts =>
    let r := bucketCheck b 1 t
    let rest := bucketRun r.2 ts
    (r.1 :: rest.1, rest.2)

/-- Python `int()` truncation toward zero on a rational. -/
def ratTrunc (q : ℚ) : Int := if 0 ≤ q then ⌊q⌋ else -⌊-q⌋

/-- Embedding of `WebSocketRateLimiter.get_remaining_tokens` (lines 51-66): refills
the bucket as a side effect and returns `int(tokens)`. -/
def get_remaining_tokens (st : WSBuckets) (uid : String) (now : ℚ) : Int × WSBuckets :=
  match lookupBucket st uid with
  | none => (20, st)
  | some b =>
    let tokens := refillTokens b now
    (ratTrunc tokens, updateBucket st uid ⟨b.capacity, b.refill_rate, tokens, now⟩)

/-! ## Minute-window limiter (`app/rate_limiter.py` lines 78-95,
`app/redis_cache.py` lines 86-101) -/

/-- The Redis key `f"rate_limit:pixels:{user_id}"`. -/
def rate_limit_key (uid : String) : String := "rate_limit:pixels:" ++ uid

/-- Embedding of `RedisCache.increment_pixel_count`: the raw `redis_client.incr`
result is an input; any exception it raises is caught and `0` is
returned. -/
def increment_pixel_count (uid : String) (incrRaw : Except Unit Nat) : Nat :=
  let _key := rate_limit_key uid
  match incrRaw with
  | Except.ok n => n
  | Except.error _ => 0

/-- The constant `RedisRateLimiter.max_pixels` (line 81). -/
def redis_max_pixels : Nat := 100

/-- Embedding of `RedisRateLimiter.check_rate_limit` (lines 83-88): admit iff the
post-increment count is at most 100; an exception anywhere makes it
return `True` (fail open). -/
def redis_check_rate_limit (uid : String) (incrRaw : Except Unit Nat) : Bool :=
  decide (increment_pixel_count uid incrRaw ≤ redis_max_pixels)

/-- Embedding of `RedisCache.get_pixel_count`: `0` on exception or missing key. -/
def get_pixel_count (uid : String) (getRaw : Except Unit Nat) : Nat :=
  let _key := rate_limit_key uid
  match getRaw with
  | Except.ok n => n
  | Except.error _ => 0

/-- Embedding of `RedisRateLimiter.get_remaining_pixels` (lines 90-95). -/
def get_remaining_pixels (uid : String) (getRaw : Except Unit Nat) : Nat :=
  max 0 (redis_max_pixels - get_pixel_count uid getRaw)

/-- Embedding of `check_pixel_rate_limit` (lines 102-113): token bucket first, then
the minute window; the reported reason is the denying limiter's
message. -/
def check_pixel_rate_limit (st : WSBuckets) (uid : String) (pixel_count now : ℚ)
    (incrRaw getRaw : Except Unit Nat) : (Bool × String) × WSBuckets :=
  let r := ws_check_rate_limit st uid pixel_count now
  if r.1 then
    if redis_check_rate_limit uid incrRaw then ((true, "Rate limit OK."), r.2)
    else
      ((false, "Minute rate limit exceeded. " ++ toString (get_remaining_pixels uid getRaw)
          ++ " pixels remaining."), r.2)
  else
    let rem := get_remaining_tokens r.2 uid now
    ((false, "Rate limit exceeded. " ++ toString rem.1 ++ " tokens remaining."), rem.2)

/-! ## Websocket ingress (`websocket_endpoint`, `app/main.py` lines
235-279) -/

/-- The `data` dict of an inbound `pixel:update` frame, before any
validation.  `tool` is the string after the `.get("tool", "brush")`
default; `userId` is `none` when the key is absent. -/
structure RawPixelData where
  x : Int
  y : Int
  color : String
  tool : String
  userId : Option String
  deriving DecidableEq

/-- Line 247: `user_id = pixel_data.get("userId", "anonymous")`. -/
def ingress_user_id (raw : RawPixelData) : String :=
  raw.userId.getD ("anonymous")

/-- Is `c` a hexadecimal digit (either case)? -/
def isHexChar (c : Char) : Bool :=
  decide (('0' ≤ c ∧ c ≤ '9') ∨ ('a' ≤ c ∧ c ≤ 'f') ∨ ('A' ≤ c ∧ c ≤ 'F'))

/-- The pydantic pattern `^#[0-9A-Fa-f]{6}$` on the colour field. -/
def colorPatternOk (s : String) : Bool :=
  match s.toList with
  | '#' :: rest => decide (rest.length = 6) && rest.all isHexChar
  | _ => false

/-- Parsing of the `tool` string into the `Tool` enum; any other string
is a pydantic validation failure. -/
def parseTool (s : String) : Option Tool :=
  if s = "brush" then some Tool.brush
  else if s = "eraser" then some Tool.eraser
  else none

/-- The pydantic validation performed by `PixelUpdate(...)` at lines
258-265: coordinate bounds `0 ≤ x < 900`, `0 ≤ y < 900`, the colour
pattern, and the tool enum; `none` is a raised `ValidationError`. -/
def validate_pixel_update (raw : RawPixelData) (uid : String) : Option PixelUpdate :=
  if 0 ≤ raw.x ∧ raw.x < 900 ∧ 0 ≤ raw.y ∧ raw.y < 900 then
    if colorPatternOk raw.color then
      match parseTool raw.tool with
      | some t => some ⟨raw.x.toNat, raw.y.toNat, raw.color, t, some uid⟩
      | none => none
    else none
  else none

/-- What one `pixel:update` frame produced at the ingress: a
`pixel:reject` sent back to this client, an edit appended to the batch
queue (nothing sent), or an uncaught exception (the `except Exception`
handler at lines 277-279: nothing is sent and the handler exits). -/
inductive IngressOutcome where
  | rejected (reason : String)
  | enqueued (u : PixelUpdate)
  | handlerError
  deriving DecidableEq

/-- State after the ingress handled one `pixel:update` frame.
`connectionAlive` is false exactly when the receive loop terminated and
the socket was discarded from `active_connections`. -/
structure IngressResult where
  outcome : IngressOutcome
  limiter : WSBuckets
  queue : List PixelUpdate
  connectionAlive : Bool
  deriving DecidableEq

/-- One `pixel:update` frame through `websocket_endpoint` (lines
245-267): derive the user id, check the composite rate limit (a deny
sends `pixel:reject` with the limiter's message and continues), then
construct the validated `PixelUpdate` and append it to
`pixel_update_queue`; a `ValidationError` propagates to the blanket
`except`, which discards the connection without sending anything.
Note: there is no lock check anywhere on this path. -/
def websocket_pixel_update (st : WSBuckets) (queue : List PixelUpdate)
    (raw : RawPixelData) (now : ℚ) (incrRaw getRaw : Except Unit Nat) : IngressResult :=
  let uid := ingress_user_id raw
  let r := check_pixel_rate_limit st uid 1 now incrRaw getRaw
  if r.1.1 then
    match validate_pixel_update raw uid with
    | some u => ⟨IngressOutcome.enqueued u, r.2, queue ++ [u], true⟩
    | none => ⟨IngressOutcome.handlerError, r.2, queue, false⟩
  else
    ⟨IngressOutcome.rejected r.1.2, r.2, queue, true⟩

/-! ## Concrete inputs used by the counterexample and witness theorems -/

/-- The all-black canvas a fresh server starts from. -/
def zeroBitmap : Bitmap := fun _ _ => (0, 0, 0)

/-- The moderation lock of scenario S3: `{x1:50, y1:50, x2:100, y2:100}`. -/
def lockS3 : RegionLock := ⟨50, 50, 100, 100, "m"⟩

/-- Active-lock list holding only `lockS3`. -/
def locksS3 : List RegionLock := [lockS3]

/-- The S3 edit at `(75, 75)` with colour `#00FF00`. -/
def editS3 : PixelUpdate := ⟨75, 75, "#00FF00", Tool.brush, some "u1"⟩

/-- The raw frame payload for `editS3`. -/
def rawS3 : RawPixelData := ⟨75, 75, "#00FF00", "brush", some "u1"⟩

/-- A raw payload with an out-of-range x coordinate (the repository's
own test `test_invalid_pixel_coordinates` uses `x = 999`). -/
def rawInvalidX : RawPixelData := ⟨999, 200, "#FF0000", "brush", some "user123"⟩

/-- An unlocked edit used for the persistence-failure scenario. -/
def editPlain : PixelUpdate := ⟨10, 10, "#123456", Tool.brush, some "u1"⟩

/-- A raw frame payload whose `userId` key is absent. -/
def rawAnon : RawPixelData := ⟨1, 2, "#FF0000", "brush", none⟩

/-! ## Frame lemmas about the applier loop -/

/-- A pixel no applied (non-locked) edit of the batch targets keeps its
value through the whole loop. -/
theorem applyBatch_frame (locks : List RegionLock) (batch : List PixelUpdate)
    (x y : Nat) :
    ∀ bm : Bitmap,
      (∀ u ∈ batch, is_position_locked locks u.x u.y = false → ¬(u.x = x ∧ u.y = y)) →
      (applyBatch locks bm batch).bitmap y x = bm y x := by
  induction batch with
  | nil => intro bm _; rfl
  | cons u rest ih =>
    intro bm hmiss
    have htail : ∀ v ∈ rest, is_position_locked locks v.x v.y = false → ¬(v.x = x ∧ v.y = y) :=
      fun v hv => hmiss v (List.mem_cons_of_mem _ hv)
    by_cases hl : is_position_locked locks u.x u.y = true
    · simp only [applyBatch, hl, if_true]
      exact ih bm htail
    · have hl' : is_position_locked locks u.x u.y = false := by
        simpa using hl
      have hne := hmiss u (List.mem_cons_self u rest) hl'
      have hset : ∀ c : RGB, setPixel bm u.y u.x c y x = bm y x := by
        intro c
        unfold setPixel
        rw [if_neg]
        rintro ⟨hy, hx⟩
        exact hne ⟨hx.symm, hy.symm⟩
      simp only [applyBatch, hl', Bool.false_eq_true, if_false]
      by_cases ht : u.tool = Tool.eraser
      · simp only [ht, if_true]
        rw [ih _ htail, hset]
      · simp only [ht, if_false]
        rw [ih _ htail, hset]

/-- Every audit entry the loop appends comes from an edit whose position
was not locked: locked edits are skipped before the append. -/
theorem applyBatch_audit_unlocked (locks : List RegionLock) (batch : List PixelUpdate) :
    ∀ bm : Bitmap, ∀ e ∈ (applyBatch locks bm batch).audit,
      is_position_locked locks e.x e.y = false := by
  induction batch with
  | nil => intro bm e he; simp [applyBatch] at he
  | cons u rest ih =>
    intro bm e he
    by_cases hl : is_position_locked locks u.x u.y = true
    · simp only [applyBatch, hl, if_true] at he
      exact ih bm e he
    · have hl' : is_position_locked locks u.x u.y = false := by
        simpa using hl
      simp only [applyBatch, hl', Bool.false_eq_true, if_false] at he
      rcases List.mem_cons.mp he with he | he

      · rw [he]
        exact hl'
      · exact ih _ e he

/-! ## Claim theorems (first group) -/

/-- C9: applying a flushed batch changes the canvas only at the
coordinates of its non-rejected edits — any pixel `(x, y)` that is not
the target of some applied (non-locked) edit of the batch has the same
bytes after `applyBatch` as before. -/
theorem C9_apply_frame_effect (locks : List RegionLock) (bm : Bitmap)
    (batch : List PixelUpdate) (x y : Nat)
    (h : ∀ u ∈ batch, is_position_locked locks u.x u.y = false → ¬(u.x = x ∧ u.y = y)) :
    (applyBatch locks bm batch).bitmap y x = bm y x :=
  applyBatch_frame locks batch x y bm h

/-- Witness for C9: the batch `[editS3]` at `(75, 75)` leaves the pixel
`(3, 4)` of the all-black canvas unchanged. -/
theorem C9_apply_frame_effect_witness :
    (applyBatch [] zeroBitmap [editS3]).bitmap 4 3 = zeroBitmap 4 3 :=
  C9_apply_frame_effect [] zeroBitmap [editS3] 3 4 (by decide)

/-- C5: an edit whose coordinate is inside an active lock rectangle at
apply time is skipped by the applier: the canvas byte at the locked
coordinate is unchanged by the batch, and no audit entry targets it. -/
theorem C5_applier_skips_locked (locks : List RegionLock) (bm : Bitmap)
    (batch : List PixelUpdate) (x y : Nat)
    (h : is_position_locked locks x y = true) :
    (applyBatch locks bm batch).bitmap y x = bm y x ∧
    ∀ e ∈ (applyBatch locks bm batch).audit, ¬(e.x = x ∧ e.y = y) := by
  constructor
  · apply applyBatch_frame
    rintro u _ hul ⟨hx, hy⟩
    rw [hx, hy, h] at hul
    exact Bool.noConfusion hul
  · rintro e he ⟨hx, hy⟩
    have hu := applyBatch_audit_unlocked locks batch bm e he
    rw [hx, hy, h] at hu
    exact Bool.noConfusion hu

/-- Witness for C5: with the S3 lock active, the edit at `(75, 75)` does
not change the locked pixel. -/
theorem C5_applier_skips_locked_witness :
    is_position_locked locksS3 75 75 = true ∧
    (applyBatch locksS3 zeroBitmap [editS3]).bitmap 75 75 = zeroBitmap 75 75 :=
  ⟨by decide, (C5_applier_skips_locked locksS3 zeroBitmap [editS3] 75 75 (by decide)).1⟩

set_option maxRecDepth 4000 in
/-- C4: after every apply, the hash persisted with the canvas and carried
in the broadcast is the lowercase-hex SHA-256 of the full canvas byte
array as it stands after the batch's writes. -/
theorem C4_hash_consistency (locks : List RegionLock) (canvas_state : Option (List Nat))
    (batch : List PixelUpdate) :
    (process_pixel_batch locks canvas_state batch).savedHash
      = sha256hex (canvasBytes (process_pixel_batch locks canvas_state batch).bitmap) ∧
    (process_pixel_batch locks canvas_state batch).savedBitmap
      = canvasBytes (process_pixel_batch locks canvas_state batch).bitmap ∧
    (process_pixel_batch locks canvas_state batch).broadcast.hash
      = (process_pixel_batch locks canvas_state batch).savedHash :=
  ⟨rfl, rfl, rfl⟩

/-- C8: when the Redis call behind the minute-window limiter raises, the
exception is swallowed (`increment_pixel_count` returns 0) and the
limiter admits: a cache outage alone never produces a window-limiter
denial. -/
theorem C8_window_fails_open (uid : String) :
    redis_check_rate_limit uid (Except.error ()) = true ∧
    increment_pixel_count uid (Except.error ()) = 0 :=
  ⟨rfl, rfl⟩

/-- C1 (code bug): the broadcast `pixels` list is built from the whole
input batch, so a lock-rejected edit appears in it — with the S3 lock
active, the rejected edit at `(75, 75)` is applied to nothing
(`acks = []`, a reject is recorded) and yet shows up in the
`pixel:bulk_update` payload. -/
theorem C1_rejected_edit_in_broadcast :
    (process_pixel_batch locksS3 none [editS3]).acks = [] ∧
    (process_pixel_batch locksS3 none [editS3]).rejects = [⟨75, 75, "Position locked"⟩] ∧
    (process_pixel_batch locksS3 none [editS3]).broadcast.pixels = [⟨75, 75, "#00FF00"⟩] :=
  ⟨rfl, rfl, rfl⟩

/-- C6 counterexample: on a persistence-write failure the failed batch's
edit is not re-queued — the queue for the next tick is empty, refuting
the claimed head-of-queue retry (and no broadcast goes out). -/
theorem C6_no_requeue_counterexample :
    (batch_pixel_updates_step [] none [editPlain] false).broadcastSent = none ∧
    (batch_pixel_updates_step [] none [editPlain] false).newQueue = [] ∧
    editPlain ∉ (batch_pixel_updates_step [] none [editPlain] false).newQueue := by
  refine ⟨rfl, rfl, ?_⟩
  simp [batch_pixel_updates_step]

/-- C6 (amended): when the persistence write fails during a flush of a
non-empty batch, the batch is not broadcast; the exception is caught and
logged by the batching loop and the batch is dropped — its edits are not
re-queued, there is no retry, and no `pixel:reject` is sent. -/
theorem C6_persist_failure_drops_batch (locks : List RegionLock)
    (canvas_state : Option (List Nat)) (u : PixelUpdate) (rest : List PixelUpdate) :
    (batch_pixel_updates_step locks canvas_state (u :: rest) false).broadcastSent = none ∧
    (batch_pixel_updates_step locks canvas_state (u :: rest) false).newQueue = [] ∧
    (batch_pixel_updates_step locks canvas_state (u :: rest) false).errorLogged = true := by
  simp [batch_pixel_updates_step]

/-! ## Token-bucket lemmas for C7 and C10 -/

/-- A constant time sequence is chained by `≤`. -/
theorem chain_le_replicate (a : ℚ) (n : Nat) :
    List.Chain (· ≤ ·) a (List.replicate n a) := by
  induction n with
  | zero => exact List.Chain.nil
  | succ m ih =>
    rw [List.replicate_succ]
    exact List.Chain.cons le_rfl ih

/-- A refill that stays under capacity, with enough tokens: admit. -/
theorem bucketCheck_admit (tok l t : ℚ) (h1 : 1 ≤ tok + (t - l) * 10)
    (h2 : tok + (t - l) * 10 ≤ 20) :
    bucketCheck ⟨20, 10, tok, l⟩ 1 t = (true, ⟨20, 10, tok + (t - l) * 10 - 1, t⟩) := by
  simp only [bucketCheck, refillTokens]
  rw [min_eq_right h2, if_pos h1]

/-- A refill clipped at capacity: admit and land on 19 tokens. -/
theorem bucketCheck_admit_clip (tok l t : ℚ) (h1 : 20 ≤ tok + (t - l) * 10) :
    bucketCheck ⟨20, 10, tok, l⟩ 1 t = (true, ⟨20, 10, 19, t⟩) := by
  simp only [bucketCheck, refillTokens]
  rw [min_eq_left h1, if_pos (by norm_num)]
  norm_num

/-- A refill that leaves less than one token: deny, keeping the refilled
token count. -/
theorem bucketCheck_deny (tok l t : ℚ) (h1 : tok + (t - l) * 10 < 1)
    (h2 : tok + (t - l) * 10 ≤ 20) :
    bucketCheck ⟨20, 10, tok, l⟩ 1 t = (false, ⟨20, 10, tok + (t - l) * 10, t⟩) := by
  simp only [bucketCheck, refillTokens]
  rw [min_eq_right h2, if_neg (by linarith)]

/-- Two-phase behaviour of a run against one bucket holding `b + r`
tokens (`b` whole tokens plus a fractional remainder `r`), when the
whole run fits in a half-token refill window: the first `b` checks
admit, every later check is denied. -/
theorem bucketRun_spec (ts : List ℚ) :
    ∀ (b : ℕ) (r l : ℚ), 0 ≤ r → b ≤ 20 →
      List.Chain (· ≤ ·) l ts → (∀ t ∈ ts, r + (t - l) * 10 ≤ 1 / 2) →
      (bucketRun ⟨20, 10, (b : ℚ) + r, l⟩ ts).1
        = List.replicate (min ts.length b) true ++ List.replicate (ts.length - b) false := by
  induction ts with
  | nil =>
    intro b r l _ _ _ _
    simp [bucketRun]
  | cons t ts ih =>
    intro b r l hr hb hchain hbound
    rw [List.chain_cons] at hchain
    obtain ⟨hlt, hchain2⟩ := hchain
    have htl : 0 ≤ (t - l) * 10 := mul_nonneg (sub_nonneg.mpr hlt) (by norm_num)
    have hbt : r + (t - l) * 10 ≤ 1 / 2 := hbound t (List.mem_cons_self _ _)
    have hbound2 : ∀ t2 ∈ ts, (r + (t - l) * 10) + (t2 - t) * 10 ≤ 1 / 2 := by
      intro t2 ht2
      have h := hbound t2 (List.mem_cons_of_mem _ ht2)
      linarith
    rcases b with _ | b0
    · -- no whole token left: deny, carry the refilled remainder
      have hz : ((0 : ℕ) : ℚ) = 0 := Nat.cast_zero
      have hstep := bucketCheck_deny (((0 : ℕ) : ℚ) + r) l t
        (by rw [hz]; linarith) (by rw [hz]; linarith)
      simp only [bucketRun, hstep]
      have hnext := ih 0 (r + (t - l) * 10) t (by linarith) (by norm_num) hchain2 hbound2
      rw [show ((0 : ℕ) : ℚ) + r + (t - l) * 10 = ((0 : ℕ) : ℚ) + (r + (t - l) * 10) from by ring]
      rw [hnext]
      simp [List.replicate_succ]
    · by_cases h20 : b0 + 1 = 20
      · -- full bucket: the refill clips at capacity, admit to 19
        have hcast : ((Nat.succ b0 : ℕ) : ℚ) = 20 := by
          rw [Nat.succ_eq_add_one]
          push_cast
          have hb0 : b0 = 19 := by omega
          subst hb0
          norm_num
        have hstep := bucketCheck_admit_clip (((Nat.succ b0 : ℕ) : ℚ) + r) l t
          (by rw [hcast]; linarith)
        simp only [bucketRun, hstep]
        have hbound19 : ∀ t2 ∈ ts, (0 : ℚ) + (t2 - t) * 10 ≤ 1 / 2 := by
          intro t2 ht2
          have h := hbound2 t2 ht2
          linarith
        have hnext := ih 19 0 t le_rfl (by norm_num) hchain2 hbound19
        rw [show (19 : ℚ) = ((19 : ℕ) : ℚ) + 0 from by norm_num]
        rw [hnext, h20]
        simp only [List.length_cons]
        rw [show min (ts.length + 1) 20 = min ts.length 19 + 1 from by omega,
            show ts.length + 1 - 20 = ts.length - 19 from by omega,
            List.replicate_succ, List.cons_append]
      · -- a whole token is available and the refill does not clip
        have hb19 : (b0 : ℕ) + 1 ≤ 19 := by omega
        have hcast : ((Nat.succ b0 : ℕ) : ℚ) = (b0 : ℚ) + 1 := by push_cast; ring
        have hble : ((b0 : ℚ) + 1) ≤ 19 := by
          have h := (Nat.cast_le (α := ℚ)).mpr hb19
          push_cast at h
          linarith
        have hpos : (0 : ℚ) ≤ (b0 : ℚ) := Nat.cast_nonneg b0
        have hstep := bucketCheck_admit (((Nat.succ b0 : ℕ) : ℚ) + r) l t
          (by rw [hcast]; linarith) (by rw [hcast]; linarith)
        simp only [bucketRun, hstep]
        have hnext := ih b0 (r + (t - l) * 10) t (by linarith) (by omega) hchain2 hbound2
        rw [show ((Nat.succ b0 : ℕ) : ℚ) + r + (t - l) * 10 - 1
              = ((b0 : ℕ) : ℚ) + (r + (t - l) * 10) from by rw [hcast]; ring]
        rw [hnext]
        simp only [List.length_cons]
        rw [show min (ts.length + 1) (b0 + 1) = min ts.length b0 + 1 from by omega,
            show ts.length + 1 - (b0 + 1) = ts.length - b0 from by omega,
            List.replicate_succ, List.cons_append]

/-- Looking up, checking and storing back in a singleton bucket map is
the single-bucket core step. -/
theorem ws_check_singleton (uid : String) (b : TokenBucket) (n t : ℚ) :
    ws_check_rate_limit [(uid, b)] uid n t
      = ((bucketCheck b n t).1, [(uid, (bucketCheck b n t).2)]) := by
  simp [ws_check_rate_limit, lookupBucket, updateBucket, List.find?]

/-- A run against a limiter holding exactly one bucket, for that
bucket's user, is the single-bucket run. -/
theorem wsRun_singleton (uid : String) (ts : List ℚ) :
    ∀ b : TokenBucket,
      wsRun [(uid, b)] uid ts = ((bucketRun b ts).1, [(uid, (bucketRun b ts).2)]) := by
  induction ts with
  | nil => intro b; rfl
  | cons t ts ih =>
    intro b
    simp only [wsRun, bucketRun, ws_check_singleton, ih]

/-- The first check of an unknown user creates the bucket seeded to the
full burst capacity of 20 at `now`, admits, and debits to 19. -/
theorem ws_check_empty (uid : String) (t : ℚ) :
    ws_check_rate_limit [] uid 1 t = (true, [(uid, ⟨20, 10, 19, t⟩)]) := by
  simp only [ws_check_rate_limit, lookupBucket, List.find?, Option.map_none,
    Option.isSome_none, Bool.false_eq_true, if_false]
  have hstep := bucketCheck_admit 20 t t (by norm_num) (by norm_num)
  norm_num at hstep ⊢
  simp [burst_capacity, ws_refill_rate, hstep, updateBucket, lookupBucket, List.find?]

/-- A fresh-limiter run whose times fit in a half-token window: the
first check creates the bucket and admits, the next 19 admit, the rest
are denied. -/
theorem wsRun_burst (uid : String) (t1 : ℚ) (rest : List ℚ)
    (hchain : List.Chain (· ≤ ·) t1 rest)
    (hbound : ∀ t ∈ rest, (t - t1) * 10 ≤ 1 / 2) :
    (wsRun [] uid (t1 :: rest)).1
      = true :: (List.replicate (min rest.length 19) true
          ++ List.replicate (rest.length - 19) false) := by
  simp only [wsRun, ws_check_empty uid t1, wsRun_singleton]
  rw [show (⟨20, 10, 19, t1⟩ : TokenBucket) = ⟨20, 10, ((19 : ℕ) : ℚ) + 0, t1⟩ from by norm_num]
  rw [bucketRun_spec rest 19 0 t1 le_rfl (by norm_num) hchain
    (fun t ht => by have h := hbound t ht; linarith)]

/-! ## Claim theorems (second group) -/

/-- C7: the token-bucket limiter creates each user's bucket lazily on
first check, seeded to the full burst capacity of 20, refills by
`min(capacity, tokens + elapsed * 10)` on each check and admits iff
`tokens ≥ n`, debiting on admit (this is `ws_check_rate_limit` /
`bucketCheck`); consequently a user making 25 checks, all within 50 ms
of the first, has exactly the first 20 admitted and the last 5 denied. -/
theorem C7_token_bucket_burst (uid : String) (t1 : ℚ) (rest : List ℚ)
    (hlen : rest.length = 24)
    (hchain : List.Chain (· ≤ ·) t1 rest)
    (hbound : ∀ t ∈ rest, t - t1 ≤ 1 / 20) :
    (wsRun [] uid (t1 :: rest)).1 = List.replicate 20 true ++ List.replicate 5 false := by
  rw [wsRun_burst uid t1 rest hchain (fun t ht => by have h := hbound t ht; linarith), hlen]
  decide

/-- Witness for C7: 25 checks by user u2, all at the same instant. -/
theorem C7_token_bucket_burst_witness :
    (wsRun [] "u2" ((0 : ℚ) :: List.replicate 24 0)).1
      = List.replicate 20 true ++ List.replicate 5 false :=
  C7_token_bucket_burst "u2" 0 (List.replicate 24 0) (by simp)
    (chain_le_replicate 0 24)
    (fun t ht => by rw [List.eq_of_mem_replicate ht]; norm_num)

/-- C10: a `pixel:update` payload without a `userId` key is attributed
to the literal user id "anonymous", whose Redis window key is the single
shared `rate_limit:pixels:anonymous`; all such clients therefore share
one token bucket, and the combined admitted count of any `n` anonymous
checks at one instant is `min n 20` — the single-user allowance, not one
allowance per client. -/
theorem C10_anonymous_attribution (raw : RawPixelData) (n : Nat) (t : ℚ)
    (h : raw.userId = none) :
    ingress_user_id raw = "anonymous" ∧
    rate_limit_key (ingress_user_id raw) = "rate_limit:pixels:anonymous" ∧
    ((wsRun [] "anonymous" (List.replicate n t)).1.count true) = min n 20 := by
  have h1 : ingress_user_id raw = "anonymous" := by
    simp [ingress_user_id, h]
  refine ⟨h1, by rw [h1]; rfl, ?_⟩
  rcases n with _ | m
  · simp [wsRun]
  · rw [List.replicate_succ]
    rw [wsRun_burst "anonymous" t (List.replicate m t) (chain_le_replicate t m)
      (fun t2 ht2 => by rw [List.eq_of_mem_replicate ht2]; norm_num)]
    simp only [List.count_cons, List.count_append, List.count_replicate, List.length_replicate]
    norm_num
    omega

/-- Witness for C10: a concrete payload without `userId`, and 25
simultaneous anonymous checks. -/
theorem C10_anonymous_attribution_witness :
    ingress_user_id rawAnon = "anonymous" ∧
    ((wsRun [] "anonymous" (List.replicate 25 (0 : ℚ))).1.count true) = min 25 20 := by
  have h := C10_anonymous_attribution rawAnon 25 0 rfl
  exact ⟨h.1, h.2.2⟩

/-! ## Ingress evaluation theorems for C2 and C3 -/

/-- The composite rate limit admits the first check of a fresh user. -/
theorem check_pixel_rate_limit_fresh (uid : String) (t : ℚ) :
    check_pixel_rate_limit [] uid 1 t (Except.ok 1) (Except.ok 1)
      = ((true, "Rate limit OK."), [(uid, ⟨20, 10, 19, t⟩)]) := by
  simp only [check_pixel_rate_limit, ws_check_empty]
  norm_num [redis_check_rate_limit, increment_pixel_count, redis_max_pixels]

/-- C2 (code bug): the S3 edit at the locked `(75, 75)` sails through
the ingress — there is no lock check on that path, so the message is
enqueued and nothing is sent to the client — and the applier then skips
it, leaving the canvas at `(75, 75)` black and recording a
"Position locked" reject that no code ever sends; the broadcast is the
only outbound message the pipeline produces, and it is a
`pixel:bulk_update`, not a `pixel:reject`. -/
theorem C2_locked_reject_never_sent :
    (websocket_pixel_update [] [] rawS3 0 (Except.ok 1) (Except.ok 1)).outcome
      = IngressOutcome.enqueued editS3 ∧
    (websocket_pixel_update [] [] rawS3 0 (Except.ok 1) (Except.ok 1)).queue = [editS3] ∧
    (process_pixel_batch locksS3 none [editS3]).bitmap 75 75 = (0, 0, 0) ∧
    (process_pixel_batch locksS3 none [editS3]).rejects = [⟨75, 75, "Position locked"⟩] ∧
    (process_pixel_batch locksS3 none [editS3]).acks = [] := by
  have hval : validate_pixel_update rawS3 "u1" = some editS3 := by decide
  have hmain : websocket_pixel_update [] [] rawS3 0 (Except.ok 1) (Except.ok 1)
      = ⟨IngressOutcome.enqueued editS3, [("u1", ⟨20, 10, 19, 0⟩)], [editS3], true⟩ := by
    simp only [websocket_pixel_update, show ingress_user_id rawS3 = "u1" from rfl,
      check_pixel_rate_limit_fresh, hval]
    simp
  refine ⟨by rw [hmain], by rw [hmain], rfl, rfl, rfl⟩

/-- C3 (code bug): a `pixel:update` whose payload fails structural
validation (here `x = 999 ≥ 900`) raises a `ValidationError` that the
receive loop does not handle: no `pixel:reject` with reason "invalid"
(or any other message) is sent, nothing is enqueued, and the blanket
`except` discards the connection — the handler exits instead of
continuing to read. -/
theorem C3_invalid_terminates_connection :
    (websocket_pixel_update [] [] rawInvalidX 0 (Except.ok 1) (Except.ok 1)).outcome
      = IngressOutcome.handlerError ∧
    (websocket_pixel_update [] [] rawInvalidX 0 (Except.ok 1) (Except.ok 1)).queue = [] ∧
    (websocket_pixel_update [] [] rawInvalidX 0 (Except.ok 1) (Except.ok 1)).connectionAlive
      = false := by
  have hval : validate_pixel_update rawInvalidX "user123" = none := by decide
  have hmain : websocket_pixel_update [] [] rawInvalidX 0 (Except.ok 1) (Except.ok 1)
      = ⟨IngressOutcome.handlerError, [("user123", ⟨20, 10, 19, 0⟩)], [], false⟩ := by
    simp only [websocket_pixel_update, show ingress_user_id rawInvalidX = "user123" from rfl,
      check_pixel_rate_limit_fresh, hval]
    simp
  refine ⟨by rw [hmain], by rw [hmain], by rw [hmain]⟩

end Pixels
